import Mathlib

/-!
Verification of the request-dispatch and backpressure layer of the
Discord/Claude bridge bot (`src/index.js`).

Strings are modelled as `List Char`.  The mutable module-level maps
(`userCooldowns : Map`, `activeProcesses : Set`) are modelled as a function
`Nat → Option Nat` and a `Finset Nat` threaded explicitly through the
dispatch functions.  The asynchronous SDK / CLI collaborators are modelled
as environment parameters (`SdkOutcome`, `CliOutcome`) describing how the
external call behaves; the dispatch code itself is translated directly
from the source.
-/

namespace DispatchBot

/-- The backtick character (used in the sanitizer's removed-character set). -/
def backtickChar : Char := Char.ofNat 96

/-- The apostrophe character (appears inside some diagnostic strings). -/
def apos : Char := Char.ofNat 39

/-- `true` on the characters removed by `sanitizeInput`
(the regex `[\$\x60\\]` in the source: dollar, backtick, backslash). -/
def isRemovedChar (c : Char) : Bool :=
  c = '$' || c = backtickChar || c = '\\'

/-- JavaScript-style whitespace test used by `String.prototype.trim`
(restricted to the ASCII whitespace characters). -/
def isJsWs (c : Char) : Bool :=
  c = ' ' || c = '\t' || c = '\n' || c = '\r' || c = Char.ofNat 11 || c = Char.ofNat 12

/-- Remove leading whitespace. -/
def trimLeft (l : List Char) : List Char := l.dropWhile isJsWs

/-- Remove trailing whitespace. -/
def trimRight (l : List Char) : List Char := (l.reverse.dropWhile isJsWs).reverse

/-- `String.prototype.trim`: remove leading and trailing whitespace. -/
def trimChars (l : List Char) : List Char := trimRight (trimLeft l)

/-- `sanitizeInput` (src/index.js:544-550):
`input.replace(/[\$\x60\\]/g, '').trim().substring(0, 4000)`. -/
def sanitizeInput (input : List Char) : List Char :=
  (trimChars (input.filter (fun c => !isRemovedChar c))).take 4000

/-- `COOLDOWN_MS = 3000` (src/index.js:39). -/
def COOLDOWN_MS : Nat := 3000

/-- `MAX_CONCURRENT_PROCESSES = 3` (src/index.js:43). -/
def MAX_CONCURRENT_PROCESSES : Nat := 3

/-- Outcome of the rate-limit check in the message handler. -/
inductive CdResult where
  | allowed : CdResult
  | denied (secondsRemaining : Nat) : CdResult
deriving DecidableEq, Repr

/-- Point update of the cooldown map (`userCooldowns.set(userId, v)`). -/
def setCd (cds : Nat → Option Nat) (u v : Nat) : Nat → Option Nat :=
  fun x => if x = u then some v else cds x

/-- The rate-limiting block of the `messageCreate` handler
(src/index.js:760-774): read `userCooldowns.get(userId)`; if an entry
exists and `now < cooldownEnd`, reply with `Math.ceil((end-now)/1000)`
seconds remaining and leave the map unchanged; otherwise delete any stale
entry and set `userCooldowns.set(userId, now + COOLDOWN_MS)`. -/
def checkAndReserve (cds : Nat → Option Nat) (u now : Nat) :
    CdResult × (Nat → Option Nat) :=
  match cds u with
  | some cooldownEnd =>
      if now < cooldownEnd then
        (.denied ((cooldownEnd - now + 999) / 1000), cds)
      else
        (.allowed, setCd cds u (now + COOLDOWN_MS))
  | none => (.allowed, setCd cds u (now + COOLDOWN_MS))

/-- `tryAdmit`: the admission step of the concurrency gate
(src/index.js:555-569): refuse when `activeProcesses.size >=
MAX_CONCURRENT_PROCESSES`, otherwise insert the freshly minted token. -/
def tryAdmit (s : Finset Nat) (tok : Nat) : Option Nat × Finset Nat :=
  if MAX_CONCURRENT_PROCESSES ≤ s.card then (none, s)
  else (some tok, insert tok s)

/-- `release`: `activeProcesses.delete(processId)` (src/index.js:628). -/
def releaseTok (s : Finset Nat) (tok : Nat) : Finset Nat := s.erase tok

/-- An abstract operation on the concurrency gate. -/
inductive GateOp where
  | acquire (tok : Nat) : GateOp
  | release (tok : Nat) : GateOp

/-- Apply one gate operation to the in-flight set. -/
def gateStep (s : Finset Nat) : GateOp → Finset Nat
  | .acquire tok => (tryAdmit s tok).2
  | .release tok => releaseTok s tok

/-- Run a sequence of gate operations from a starting state. -/
def runGate (ops : List GateOp) (s : Finset Nat) : Finset Nat :=
  ops.foldl gateStep s

/-! ### Fixed message strings of the dispatch layer -/

/-- Concurrency refusal message (src/index.js:556). -/
def busyMsg : List Char :=
  ("System busy. Too many requests in progress. Please try again in a moment.".toList)

/-- Invalid-input rejection message (src/index.js:562). -/
def invalidMsg : List Char := ("Invalid or empty message".toList)

/-- Placeholder when the SDK stream ends with no result message (src/index.js:612). -/
def sdkNoRespMsg : List Char := ("No response received from Claude SDK".toList)

/-- Placeholder used by `sendResponse` for falsy responses (src/index.js:722)
and by the CLI parse fallback (src/index.js:698). -/
def noRespMsg : List Char := ("No response received".toList)

/-- CLI hard-timeout rejection message (src/index.js:712). -/
def cliTimeoutMsg : List Char :=
  ("Claude CLI process timed out after 15 seconds. Try using the SDK instead.".toList)

/-- CLI spawn-error rejection message (src/index.js:668). -/
def cliProcErrMsg (m : List Char) : List Char :=
  ("Claude CLI process error: ".toList) ++ m

/-- CLI non-zero-exit rejection message (src/index.js:701). -/
def cliFailMsg (code : Nat) (stderr : List Char) : List Char :=
  ("Claude CLI process failed (code ".toList) ++ Nat.toDigits 10 code
    ++ ("): ".toList) ++ stderr

/-- Validation reply for empty / oversized messages (src/index.js:753). -/
def lenValidationMsg : List Char :=
  ("❌ Message must be between 1-4000 characters.".toList)

/-- Validation reply for attachments (src/index.js:757). -/
def attachMsg : List Char :=
  ("❌ File attachments are not supported in Claude chat. Please paste text content directly.".toList)

/-- Cooldown denial reply (src/index.js:767). -/
def waitMsg (secs : Nat) : List Char :=
  ("⏳ Please wait ".toList) ++ Nat.toDigits 10 secs
    ++ ("s before sending another message.".toList)

/-- Timeout-specific diagnostic emitted by the dispatcher (src/index.js:792-796). -/
def timeoutDiag : List Char :=
  ("⏱️ Claude is taking longer than expected. This might be due to:\n".toList)
    ++ ("• Claude Code CLI not being properly authenticated\n".toList)
    ++ ("• Network connectivity issues\n".toList)
    ++ ("• Claude CLI hanging in non-interactive mode\n\n".toList)
    ++ ("Try running ".toList) ++ [backtickChar]
    ++ ("claude --help".toList) ++ [backtickChar]
    ++ (" in your terminal to verify it".toList) ++ [apos] ++ ("s working.".toList)

/-- Not-found diagnostic emitted by the dispatcher (src/index.js:798-800). -/
def notFoundDiag : List Char :=
  ("🔧 Claude Code CLI is not installed or not in PATH.\n".toList)
    ++ ("Install it with: ".toList) ++ [backtickChar]
    ++ ("npm install -g @anthropic-ai/claude-code".toList) ++ [backtickChar]
    ++ ("\nOr verify it".toList) ++ [apos] ++ ("s accessible: ".toList)
    ++ [backtickChar] ++ ("which claude".toList) ++ [backtickChar]

/-- Process-error diagnostic emitted by the dispatcher (src/index.js:802-807). -/
def procErrDiag (e : List Char) : List Char :=
  ("🔧 Claude Code CLI process error. This might be due to:\n".toList)
    ++ ("• Claude Code CLI not being properly authenticated\n".toList)
    ++ ("• Missing dependencies or corrupted installation\n".toList)
    ++ ("• System permissions issues\n\n".toList)
    ++ ("Try running ".toList) ++ [backtickChar]
    ++ ("claude --help".toList) ++ [backtickChar]
    ++ (" to verify it".toList) ++ [apos] ++ ("s working.\n".toList)
    ++ ("Error: ".toList) ++ e

/-- Generic diagnostic emitted by the dispatcher (src/index.js:809-811). -/
def genericDiag (e : List Char) : List Char :=
  ("❌ Sorry, I encountered an error processing your message.\nError: ".toList)
    ++ e
    ++ ("\n\nPlease verify Claude Code CLI is installed and working: ".toList)
    ++ [backtickChar] ++ ("claude --help".toList) ++ [backtickChar]

/-- `String.prototype.includes`: does `hay` contain `needle` as a
contiguous substring? -/
def includesSub (needle : List Char) : List Char → Bool
  | [] => needle.isEmpty
  | c :: cs => needle.isPrefixOf (c :: cs) || includesSub needle cs

/-- The dispatcher's error classification cascade (src/index.js:791-812):
substring tests on the error message, in order. -/
def classifyError (e : List Char) : List Char :=
  if includesSub ("timed out".toList) e then timeoutDiag
  else if includesSub ("ENOENT".toList) e || includesSub ("command not found".toList) e then
    notFoundDiag
  else if includesSub ("Claude process error".toList) e then procErrDiag e
  else genericDiag e

/-! ### Assistant Invoker environment and state machine -/

/-- Behaviour of the SDK attempt (the `claudeQuery` call, src/index.js:573-617),
supplied as an environment parameter:
`unavailable` = `claudeQuery` is `null`; `throws` = the call or iteration
throws; `resultMsg r` = the stream yields a message of type `result` with
content `r`; `noResultMsg last` = the stream ends without a result message,
`last` being the `content` of the last message (if any). -/
inductive SdkOutcome where
  | unavailable : SdkOutcome
  | throws (msg : List Char) : SdkOutcome
  | resultMsg (r : List Char) : SdkOutcome
  | noResultMsg (lastContent : Option (List Char)) : SdkOutcome

/-- The condition under which the SDK attempt falls through to the CLI
(src/index.js:573, 599-601, 614-617): handle unavailable, call throwing,
or a result-typed message whose content is empty / whitespace-only. -/
def sdkTriggersFallback : SdkOutcome → Bool
  | .unavailable => true
  | .throws _ => true
  | .resultMsg r => (trimChars r).isEmpty
  | .noResultMsg _ => false

/-- Fields of the JSON object obtained from the CLI's stdout
(`JSON.parse` is an external builtin; its outcome is part of the
environment).  String-typed fields are `some s` when present. -/
structure ParsedJson where
  result : Option (List Char)
  response : Option (List Char)
  jtype : Option (List Char)
  isError : Bool

/-- JavaScript truthiness of an optional string field
(absent or empty string is falsy). -/
def truthyStr : Option (List Char) → Bool
  | some s => !s.isEmpty
  | none => false

/-- The response-extraction cascade run on a successfully parsed CLI
stdout (src/index.js:677-691). -/
def cliParseResponse (stdout : List Char) (p : ParsedJson) : List Char :=
  if truthyStr p.result then p.result.getD []
  else if truthyStr p.response then p.response.getD []
  else if p.jtype = some ("result".toList) ∧ p.isError = false then
    (if truthyStr p.result then p.result.getD []
     else ("Claude processed your message but returned no content.".toList))
  else if p.isError then
    ("❌ Claude encountered an error processing your message.".toList)
  else stdout

/-- Behaviour of the spawned CLI process, supplied as an environment
parameter.  `closes` = a `close` event at time `t` (ms) with exit `code`,
captured `stdout`/`stderr` and the outcome `parse` of `JSON.parse(stdout)`
(`none` = the parse throws); `errorEvent` = an `error` event (e.g. spawn
failure) at time `t`; `hangs` = the process never settles. -/
inductive CliOutcome where
  | closes (code : Nat) (stdout stderr : List Char) (parse : Option ParsedJson) (t : Nat) : CliOutcome
  | errorEvent (msg : List Char) (t : Nat) : CliOutcome
  | hangs : CliOutcome

/-- The CLI invocation has not settled within the 15,000 ms hard timeout. -/
def cliUnsettledBy15000 : CliOutcome → Bool
  | .closes _ _ _ _ t => 15000 < t
  | .errorEvent _ t => 15000 < t
  | .hangs => true

/-- Result of one CLI invocation: how the promise settles, and whether the
timeout handler sent `SIGTERM` to the process. -/
structure CliResult where
  outcome : Except (List Char) (List Char)
  sigtermSent : Bool

/-- `processWithClaudeCLI` (src/index.js:634-715): spawn
`claude -p <sanitized> --output-format json`, race the process events
against a 15,000 ms timer; on timeout send `SIGTERM` and reject; on an
`error` event reject; on `close` with code 0 parse stdout (falling back to
the raw text), otherwise reject with the exit code and stderr. -/
def processWithClaudeCLI (sanitized : List Char) (b : CliOutcome) : CliResult :=
  match b with
  | .hangs => ⟨.error cliTimeoutMsg, true⟩
  | .errorEvent m t =>
      if t ≤ 15000 then ⟨.error (cliProcErrMsg m), false⟩
      else ⟨.error cliTimeoutMsg, true⟩
  | .closes code stdout stderr parse t =>
      if t ≤ 15000 then
        if code = 0 then
          match parse with
          | some parsed => ⟨.ok (cliParseResponse stdout parsed), false⟩
          | none => ⟨.ok (if stdout.isEmpty then noRespMsg else stdout), false⟩
        else ⟨.error (cliFailMsg code stderr), false⟩
      else ⟨.error cliTimeoutMsg, true⟩

/-- Result of `processWithClaude`: the settled promise, the final in-flight
set, the prompt handed to the CLI fallback (when it was attempted), and
whether a `SIGTERM` was sent. -/
structure ProcResult where
  outcome : Except (List Char) (List Char)
  gate : Finset Nat
  cliPrompt : Option (List Char)
  sigtermSent : Bool

/-- `processWithClaude` (src/index.js:553-630): refuse when the gate is
full; sanitize and reject empty input; otherwise admit a fresh token, try
the SDK path, fall back to the CLI on unavailability / throw / empty
result, and release the token in the `finally` block on every path. -/
def processWithClaude (s : Finset Nat) (tok : Nat) (messageContent : List Char)
    (sdk : SdkOutcome) (cli : CliOutcome) : ProcResult :=
  if MAX_CONCURRENT_PROCESSES ≤ s.card then
    ⟨.error busyMsg, s, none, false⟩
  else
    let sanitized := sanitizeInput messageContent
    if sanitized.isEmpty then ⟨.error invalidMsg, s, none, false⟩
    else
      let gateOut := releaseTok (insert tok s) tok
      match sdk with
      | .resultMsg r =>
          if (trimChars r).isEmpty then
            let c := processWithClaudeCLI sanitized cli
            ⟨c.outcome, gateOut, some sanitized, c.sigtermSent⟩
          else ⟨.ok r, gateOut, none, false⟩
      | .noResultMsg lastContent =>
          ⟨.ok (match lastContent with
                | some lc => if lc.isEmpty then sdkNoRespMsg else lc
                | none => sdkNoRespMsg),
            gateOut, none, false⟩
      | .unavailable =>
          let c := processWithClaudeCLI sanitized cli
          ⟨c.outcome, gateOut, some sanitized, c.sigtermSent⟩
      | .throws _ =>
          let c := processWithClaudeCLI sanitized cli
          ⟨c.outcome, gateOut, some sanitized, c.sigtermSent⟩

/-! ### Response chunking -/

/-- `MAX_LENGTH = 2000` (src/index.js:719): the platform message limit. -/
def MAX_LENGTH : Nat := 2000

/-- Ceiling division `⌈a / C⌉` (for `C ≥ 1`), the chunk count of the
splitting loop. -/
def ceilDiv (a C : Nat) : Nat := (a + (C - 1)) / C

/-- Split a string into consecutive `C`-character pieces (the loop
`for (i = 0; i < len; i += MAX_LENGTH) push(substring(i, i + MAX_LENGTH))`,
src/index.js:728-731), with an explicit fuel for termination. -/
def chunksAux (C : Nat) : Nat → List Char → List (List Char)
  | _, [] => []
  | 0, _ :: _ => []
  | fuel + 1, c :: cs => ((c :: cs).take C) :: chunksAux C fuel ((c :: cs).drop C)

/-- The chunk list of a response (`chunks` in src/index.js:728-731). -/
def chunkList (C : Nat) (l : List Char) : List (List Char) :=
  chunksAux C l.length l

/-- The continuation marker prepended to chunk number `i` of `total`
(the template literal in src/index.js:734). -/
def pfxMark (i total : Nat) : List Char :=
  ("(".toList) ++ Nat.toDigits 10 i ++ ("/".toList) ++ Nat.toDigits 10 total
    ++ (") ".toList)

/-- Prepend the continuation markers: chunk 0 is sent bare, chunk `i > 0`
is sent as `(i+1/total) ` followed by the chunk (src/index.js:733-740). -/
def addMarks (total : Nat) : Nat → List (List Char) → List (List Char)
  | _, [] => []
  | i, c :: cs =>
      (if i = 0 then c else pfxMark (i + 1) total ++ c) :: addMarks total (i + 1) cs

/-- The sequence of outbound message strings produced from a response text
of length `> C` (src/index.js:727-741). -/
def markedChunks (C : Nat) (l : List Char) : List (List Char) :=
  addMarks (chunkList C l).length 0 (chunkList C l)

/-- The splitting branch of `sendResponse`: one bare message when the text
fits in `C` characters, otherwise the marked chunk sequence. -/
def chunkResponse (C : Nat) (l : List Char) : List (List Char) :=
  if l.length ≤ C then [l] else markedChunks C l

/-- `sendResponse` (src/index.js:718-742), modelled as the list of message
strings actually emitted: substitute `No response received` for a falsy
response (`null`/`undefined` = `none`, or the empty string), then send the
text directly if it fits, otherwise split and mark. -/
def sendResponse (response : Option (List Char)) : List (List Char) :=
  let responseText :=
    match response with
    | none => noRespMsg
    | some s => if s.isEmpty then noRespMsg else s
  chunkResponse MAX_LENGTH responseText

/-! ### Dispatcher (`messageCreate` handler, claude-chat branch) -/

/-- The process-wide mutable state of the dispatch layer:
`userCooldowns` and `activeProcesses`. -/
structure BotState where
  cooldowns : Nat → Option Nat
  active : Finset Nat

/-- Observable result of handling one inbound message: the reply strings
emitted, the final state, whether `processWithClaude` was reached, the
prompt handed to the CLI (when attempted), and whether a `SIGTERM` was
sent to a spawned process. -/
structure HandlerResult where
  replies : List (List Char)
  state : BotState
  invoked : Bool
  cliPrompt : Option (List Char)
  sigtermSent : Bool

/-- The `claude-chat` branch of the `messageCreate` handler
(src/index.js:750-818): validate length and attachments, run the cooldown
check (writing the new cooldown on the Allowed path), call
`processWithClaude`, and emit either the chunked response or a classified
error diagnostic. -/
def handleMessage (st : BotState) (now userId : Nat) (content : List Char)
    (attachments : Nat) (sdk : SdkOutcome) (cli : CliOutcome) (tok : Nat) :
    HandlerResult :=
  if content.isEmpty || decide (4000 < content.length) then
    ⟨[lenValidationMsg], st, false, none, false⟩
  else if 0 < attachments then
    ⟨[attachMsg], st, false, none, false⟩
  else
    match checkAndReserve st.cooldowns userId now with
    | (.denied secs, _) => ⟨[waitMsg secs], st, false, none, false⟩
    | (.allowed, cds1) =>
        let p := processWithClaude st.active tok content sdk cli
        match p.outcome with
        | .ok resp =>
            ⟨sendResponse (some resp), ⟨cds1, p.gate⟩, true, p.cliPrompt, p.sigtermSent⟩
        | .error e =>
            ⟨[classifyError e], ⟨cds1, p.gate⟩, true, p.cliPrompt, p.sigtermSent⟩

/-! ## Concurrency-gate lemmas -/

theorem tryAdmit_card_le (s : Finset Nat) (tok : Nat)
    (h : s.card ≤ MAX_CONCURRENT_PROCESSES) :
    ((tryAdmit s tok).2).card ≤ MAX_CONCURRENT_PROCESSES := by
  unfold tryAdmit
  split
  · exact h
  · next hfull =>
      calc (insert tok s).card ≤ s.card + 1 := Finset.card_insert_le _ _
        _ ≤ MAX_CONCURRENT_PROCESSES := by omega

theorem runGate_card_le (ops : List GateOp) :
    ∀ s : Finset Nat, s.card ≤ MAX_CONCURRENT_PROCESSES →
      (runGate ops s).card ≤ MAX_CONCURRENT_PROCESSES := by
  induction ops with
  | nil => intro s hs; exact hs
  | cons op ops ih =>
      intro s hs
      have hstep : (gateStep s op).card ≤ MAX_CONCURRENT_PROCESSES := by
        cases op with
        | acquire tok => exact tryAdmit_card_le s tok hs
        | release tok =>
            exact le_trans (Finset.card_erase_le) hs
      exact ih (gateStep s op) hstep

/-- C2: under every sequence of admit/release operations starting from the
empty in-flight set, the set never holds more than `MAX_CONCURRENT_PROCESSES`
(= 3) tokens; and when the set is already at (or beyond) the bound,
`tryAdmit` refuses and leaves the set unchanged — the request is never
queued. -/
theorem gate_card_le_max (ops : List GateOp) (s : Finset Nat) (tok : Nat)
    (hs : MAX_CONCURRENT_PROCESSES ≤ s.card) :
    (runGate ops ∅).card ≤ MAX_CONCURRENT_PROCESSES ∧
      tryAdmit s tok = (none, s) := by
  constructor
  · exact runGate_card_le ops ∅ (by simp)
  · unfold tryAdmit
    rw [if_pos hs]

/-- Witness for C2 at a concrete operation sequence and a concrete full
in-flight set. -/
theorem gate_card_le_max_witness :
    (runGate [GateOp.acquire 1, GateOp.acquire 2, GateOp.acquire 3, GateOp.acquire 4,
        GateOp.release 2, GateOp.acquire 5] ∅).card ≤ MAX_CONCURRENT_PROCESSES ∧
      tryAdmit ({1, 2, 3} : Finset Nat) 4 = (none, ({1, 2, 3} : Finset Nat)) :=
  gate_card_le_max _ _ 4 (by decide)

/-- C3: every admitted token is removed again when the invocation settles,
on every exit path: whatever the SDK and CLI environments do (success,
thrown error, empty result, timeout), `processWithClaude` returns the
in-flight set it started from when the minted token is fresh. -/
theorem gate_token_released_all_paths (s : Finset Nat) (tok : Nat)
    (content : List Char) (sdk : SdkOutcome) (cli : CliOutcome)
    (h : tok ∉ s) :
    (processWithClaude s tok content sdk cli).gate = s := by
  have herase : releaseTok (insert tok s) tok = s := by
    unfold releaseTok
    exact Finset.erase_insert h
  unfold processWithClaude
  by_cases h1 : MAX_CONCURRENT_PROCESSES ≤ s.card
  · simp [h1]
  · rw [if_neg h1]
    by_cases h2 : (sanitizeInput content).isEmpty
    · simp [h2]
    · cases sdk with
      | unavailable => simp [h2, herase]
      | throws m => simp [h2, herase]
      | resultMsg r =>
          by_cases hr : (trimChars r).isEmpty <;> simp [h2, hr, herase]
      | noResultMsg lastContent => simp [h2, herase]

/-- Witness for C3: a fresh token against a two-element in-flight set, an
SDK empty result and a hanging CLI (the timeout exit path). -/
theorem gate_token_released_all_paths_witness :
    (processWithClaude ({1, 2} : Finset Nat) 5 ("hi".toList)
        (SdkOutcome.resultMsg []) CliOutcome.hangs).gate = ({1, 2} : Finset Nat) :=
  gate_token_released_all_paths _ 5 _ _ _ (by decide)

/-! ## Chunking lemmas -/

theorem ceilDiv_zero (C : Nat) : ceilDiv 0 C = 0 := by
  unfold ceilDiv
  rcases Nat.eq_zero_or_pos C with h | h
  · subst h; rfl
  · exact Nat.div_eq_of_lt (by omega)

theorem ceilDiv_step (C len : Nat) (hC : 1 ≤ C) (hlen : 1 ≤ len) :
    ceilDiv len C = ceilDiv (len - C) C + 1 := by
  unfold ceilDiv
  rcases le_or_lt len C with h | h
  · have h0 : len - C = 0 := by omega
    rw [h0]
    have h1 : len + (C - 1) = (len - 1) + C := by omega
    rw [h1, Nat.add_div_right _ (by omega)]
    rw [Nat.div_eq_of_lt (by omega), Nat.div_eq_of_lt (by omega)]
  · have h1 : len + (C - 1) = ((len - C) + (C - 1)) + C := by omega
    rw [h1, Nat.add_div_right _ (by omega)]

theorem ceilDiv_pos (C len : Nat) (hC : 1 ≤ C) (hlen : 1 ≤ len) :
    1 ≤ ceilDiv len C := by
  rw [ceilDiv_step C len hC hlen]
  omega

theorem ceilDiv_eq_one (C len : Nat) (hC : 1 ≤ C) (hlen1 : 1 ≤ len)
    (hlen2 : len ≤ C) : ceilDiv len C = 1 := by
  rw [ceilDiv_step C len hC hlen1]
  have h0 : len - C = 0 := by omega
  rw [h0, ceilDiv_zero]

theorem chunksAux_length (C : Nat) (hC : 1 ≤ C) :
    ∀ fuel (l : List Char), l.length ≤ fuel →
      (chunksAux C fuel l).length = ceilDiv l.length C := by
  intro fuel
  induction fuel with
  | zero =>
      intro l hl
      have h0 : l = [] := by
        cases l with
        | nil => rfl
        | cons c cs => simp at hl
      subst h0
      simp [chunksAux, ceilDiv_zero]
  | succ fuel ih =>
      intro l hl
      cases l with
      | nil => simp [chunksAux, ceilDiv_zero]
      | cons c cs =>
          rw [chunksAux]
          have hdrop : ((c :: cs).drop C).length ≤ fuel := by
            rw [List.length_drop]
            simp only [List.length_cons] at hl ⊢
            omega
          rw [List.length_cons, ih _ hdrop, List.length_drop]
          rw [ceilDiv_step C (c :: cs).length hC (by simp)]

theorem chunksAux_join (C : Nat) (hC : 1 ≤ C) :
    ∀ fuel (l : List Char), l.length ≤ fuel →
      (chunksAux C fuel l).flatten = l := by
  intro fuel
  induction fuel with
  | zero =>
      intro l hl
      cases l with
      | nil => simp [chunksAux]
      | cons c cs => simp at hl
  | succ fuel ih =>
      intro l hl
      cases l with
      | nil => simp [chunksAux]
      | cons c cs =>
          rw [chunksAux]
          have hdrop : ((c :: cs).drop C).length ≤ fuel := by
            rw [List.length_drop]
            simp only [List.length_cons] at hl ⊢
            omega
          rw [List.flatten_cons, ih _ hdrop, List.take_append_drop]

theorem chunksAux_getElem? (C : Nat) (hC : 1 ≤ C) :
    ∀ fuel (l : List Char) (k : Nat), l.length ≤ fuel →
      k < ceilDiv l.length C →
      (chunksAux C fuel l)[k]? = some ((l.drop (k * C)).take C) := by
  intro fuel
  induction fuel with
  | zero =>
      intro l k hl hk
      cases l with
      | nil => simp only [List.length_nil, ceilDiv_zero] at hk; omega
      | cons c cs => simp at hl
  | succ fuel ih =>
      intro l k hl hk
      cases l with
      | nil => simp only [List.length_nil, ceilDiv_zero] at hk; omega
      | cons c cs =>
          rw [chunksAux]
          cases k with
          | zero => simp
          | succ k =>
              have hdrop : ((c :: cs).drop C).length ≤ fuel := by
                rw [List.length_drop]
                simp only [List.length_cons] at hl ⊢
                omega
              have hk2 : k < ceilDiv ((c :: cs).drop C).length C := by
                rw [List.length_drop]
                rw [ceilDiv_step C (c :: cs).length hC (by simp)] at hk
                omega
              rw [List.getElem?_cons_succ, ih _ k hdrop hk2]
              rw [List.drop_drop]
              have harith : C + k * C = (k + 1) * C := by ring
              rw [harith]

theorem addMarks_getElem? (total : Nat) :
    ∀ (cs : List (List Char)) (i k : Nat),
      (addMarks total i cs)[k]? =
        (cs[k]?).map
          (fun c => if i + k = 0 then c else pfxMark (i + k + 1) total ++ c) := by
  intro cs
  induction cs with
  | nil => intro i k; simp [addMarks]
  | cons c cs ih =>
      intro i k
      rw [addMarks]
      cases k with
      | zero => simp
      | succ k =>
          rw [List.getElem?_cons_succ, List.getElem?_cons_succ, ih (i + 1) k]
          have h1 : i + 1 + k = i + (k + 1) := by omega
          rw [h1]

theorem addMarks_length (total : Nat) :
    ∀ (cs : List (List Char)) (i : Nat),
      (addMarks total i cs).length = cs.length := by
  intro cs
  induction cs with
  | nil => intro i; simp [addMarks]
  | cons c cs ih => intro i; rw [addMarks]; simp [ih]

theorem chunkList_length (C : Nat) (l : List Char) (hC : 1 ≤ C) :
    (chunkList C l).length = ceilDiv l.length C :=
  chunksAux_length C hC l.length l le_rfl

theorem chunkList_join (C : Nat) (l : List Char) (hC : 1 ≤ C) :
    (chunkList C l).flatten = l :=
  chunksAux_join C hC l.length l le_rfl

theorem chunkList_getElem? (C : Nat) (l : List Char) (k : Nat) (hC : 1 ≤ C)
    (hk : k < ceilDiv l.length C) :
    (chunkList C l)[k]? = some ((l.drop (k * C)).take C) :=
  chunksAux_getElem? C hC l.length l k le_rfl hk

theorem chunkList_eq_range_map (C : Nat) (l : List Char) (hC : 1 ≤ C) :
    chunkList C l =
      (List.range (ceilDiv l.length C)).map (fun k => (l.drop (k * C)).take C) := by
  apply List.ext_getElem?
  intro k
  by_cases hk : k < ceilDiv l.length C
  · rw [chunkList_getElem? C l k hC hk]
    rw [List.getElem?_map, List.getElem?_range hk]
    rfl
  · have h1 : (chunkList C l)[k]? = none := by
      rw [List.getElem?_eq_none_iff, chunkList_length C l hC]
      omega
    have h2 :
        ((List.range (ceilDiv l.length C)).map
          (fun k => (l.drop (k * C)).take C))[k]? = none := by
      rw [List.getElem?_eq_none_iff, List.length_map, List.length_range]
      omega
    rw [h1, h2]

/-- C6: for every reply `l` and limit `C ≥ 1`, the splitting loop of
`sendResponse` produces `⌈len/C⌉` segments in order; segment `k` is the
slice `l[k*C .. k*C+C)` (exact `C`-character boundaries), carrying no
marker when `k = 0` and the marker `(k+1/total) ` otherwise;
concatenating the bodies reproduces `l`; and a reply with `len ≤ C`
yields exactly the single unmarked segment `[l]`. -/
theorem chunk_response_spec (C : Nat) (l : List Char) (hC : 1 ≤ C)
    (hl : 1 ≤ l.length) :
    (chunkResponse C l).length = ceilDiv l.length C ∧
    (∀ k, k < ceilDiv l.length C →
      (chunkResponse C l)[k]? =
        some ((if k = 0 then [] else pfxMark (k + 1) (ceilDiv l.length C))
          ++ ((l.drop (k * C)).take C))) ∧
    ((List.range (ceilDiv l.length C)).map
        (fun k => (l.drop (k * C)).take C)).flatten = l ∧
    (l.length ≤ C → chunkResponse C l = [l]) := by
  have hjoin :
      ((List.range (ceilDiv l.length C)).map
        (fun k => (l.drop (k * C)).take C)).flatten = l := by
    rw [← chunkList_eq_range_map C l hC, chunkList_join C l hC]
  by_cases hcase : l.length ≤ C
  · have hone : ceilDiv l.length C = 1 := ceilDiv_eq_one C l.length hC hl hcase
    have hresp : chunkResponse C l = [l] := by
      unfold chunkResponse
      rw [if_pos hcase]
    refine ⟨by rw [hresp, hone]; rfl, ?_, hjoin, fun _ => hresp⟩
    intro k hk
    rw [hone] at hk
    interval_cases k
    rw [hresp]
    simp [List.take_of_length_le hcase]
  · have hresp : chunkResponse C l = markedChunks C l := by
      unfold chunkResponse
      rw [if_neg hcase]
    have hlen : (chunkResponse C l).length = ceilDiv l.length C := by
      rw [hresp]
      unfold markedChunks
      rw [addMarks_length, chunkList_length C l hC]
    refine ⟨hlen, ?_, hjoin, fun h => absurd h hcase⟩
    intro k hk
    rw [hresp]
    unfold markedChunks
    rw [addMarks_getElem?, chunkList_getElem? C l k hC hk,
      chunkList_length C l hC]
    simp only [Option.map_some', Nat.zero_add]
    by_cases hk0 : k = 0
    · subst hk0; simp
    · rw [if_neg hk0, if_neg hk0]

/-- Witness for C6 at `C = 3` and the 7-character reply `abcdefg`
(three chunks, the later two marked). -/
theorem chunk_response_spec_witness :
    (chunkResponse 3 ("abcdefg".toList)).length = ceilDiv ("abcdefg".toList).length 3 ∧
    (chunkResponse 3 ("abcdefg".toList))[1]? =
      some (pfxMark 2 (ceilDiv ("abcdefg".toList).length 3)
        ++ ((("abcdefg".toList).drop (1 * 3)).take 3)) := by
  constructor
  · exact (chunk_response_spec 3 ("abcdefg".toList) (by decide) (by decide)).1
  · have h := (chunk_response_spec 3 ("abcdefg".toList) (by decide) (by decide)).2.1
      1 (by decide)
    simpa using h

/-- C7 evaluated at the failing input: a 4000-character reply is split
into a bare 2000-character message and a second message of 2006
characters — the `(2/2) ` marker is prepended after splitting at
`MAX_LENGTH`, so the second outbound message exceeds the 2000-character
platform limit. -/
theorem chunk_mark_exceeds_limit :
    (sendResponse (some (List.replicate 4000 'a'))).map List.length = [2000, 2006] ∧
    MAX_LENGTH = 2000 := by
  constructor
  · have hne : (List.replicate 4000 'a').isEmpty = false := by
      rw [List.replicate_succ]
      rfl
    have hchunks : chunkList 2000 (List.replicate 4000 'a') =
        [List.replicate 2000 'a', List.replicate 2000 'a'] := by
      apply List.ext_getElem?
      intro k
      have hlen2 : (chunkList 2000 (List.replicate 4000 'a')).length = 2 := by
        rw [chunkList_length 2000 _ (by omega), List.length_replicate]
        decide
      match k with
      | 0 =>
          rw [chunkList_getElem? 2000 _ 0 (by omega)
            (by rw [List.length_replicate]; decide)]
          rw [Nat.zero_mul, List.drop_zero, List.take_replicate]
          rw [Nat.min_eq_left (by omega)]
          rfl
      | 1 =>
          rw [chunkList_getElem? 2000 _ 1 (by omega)
            (by rw [List.length_replicate]; decide)]
          rw [Nat.one_mul, List.drop_replicate]
          rw [show (4000 : Nat) - 2000 = 2000 from by omega]
          rw [List.take_replicate, Nat.min_self]
          rfl
      | k + 2 =>
          have h1 : (chunkList 2000 (List.replicate 4000 'a'))[k + 2]? = none := by
            rw [List.getElem?_eq_none_iff, hlen2]
            omega
          rw [h1]
          rfl
    have hbig : ¬((List.replicate 4000 'a').length ≤ 2000) := by
      rw [List.length_replicate]
      omega
    have haddm : addMarks 2 0 [List.replicate 2000 'a', List.replicate 2000 'a'] =
        [List.replicate 2000 'a', pfxMark 2 2 ++ List.replicate 2000 'a'] := by
      simp only [addMarks]
      norm_num
    have hpfx : (pfxMark 2 2).length = 6 := by decide
    show (chunkResponse MAX_LENGTH (List.replicate 4000 'a')).map List.length
        = [2000, 2006]
    unfold chunkResponse MAX_LENGTH
    rw [if_neg hbig]
    unfold markedChunks
    rw [hchunks]
    rw [show ([List.replicate 2000 'a', List.replicate 2000 'a'] :
        List (List Char)).length = 2 from rfl]
    rw [haddm]
    rw [List.map_cons, List.map_cons, List.map_nil]
    rw [List.length_append, hpfx]
    simp only [List.length_replicate]
  · rfl

theorem chunkResponse_length_pos (C : Nat) (l : List Char) (hC : 1 ≤ C) :
    0 < (chunkResponse C l).length := by
  unfold chunkResponse
  split
  · simp
  · next h =>
      unfold markedChunks
      rw [addMarks_length, chunkList_length C l hC]
      exact ceilDiv_pos C l.length hC (by omega)

/-- C10: a falsy invocation outcome handed to the response sender —
`null`/`undefined` (modelled `none`) or the empty string — produces
exactly one outbound message, that message is the literal text
`No response received`, and for every outcome the sender (a total
function) emits at least one message. -/
theorem send_response_null_empty (r : Option (List Char)) :
    sendResponse none = [noRespMsg] ∧
    sendResponse (some []) = [noRespMsg] ∧
    noRespMsg = ("No response received".toList) ∧
    0 < (sendResponse r).length := by
  refine ⟨rfl, rfl, rfl, ?_⟩
  unfold sendResponse
  cases r with
  | none => exact chunkResponse_length_pos MAX_LENGTH _ (by decide)
  | some s => exact chunkResponse_length_pos MAX_LENGTH _ (by decide)

/-! ## Sanitizer lemmas -/

theorem mem_of_mem_dropWhile {p : Char → Bool} {c : Char} {l : List Char}
    (h : c ∈ l.dropWhile p) : c ∈ l :=
  (List.dropWhile_sublist p).mem h

theorem mem_of_mem_trimRight {c : Char} {l : List Char}
    (h : c ∈ trimRight l) : c ∈ l := by
  unfold trimRight at h
  rw [List.mem_reverse] at h
  have h2 := mem_of_mem_dropWhile h
  rwa [List.mem_reverse] at h2

theorem mem_of_mem_sanitize {c : Char} {l : List Char}
    (h : c ∈ sanitizeInput l) :
    c ∈ l.filter (fun c => !isRemovedChar c) := by
  unfold sanitizeInput trimChars trimLeft at h
  have h1 := (List.take_sublist 4000 _).mem h
  exact mem_of_mem_dropWhile (mem_of_mem_trimRight h1)

theorem head?_take_pos {n : Nat} {l : List Char} (hn : 0 < n) :
    (l.take n).head? = l.head? := by
  cases l with
  | nil => simp
  | cons c cs =>
      cases n with
      | zero => omega
      | succ n => simp

theorem head?_dropWhile_false {p : Char → Bool} {c : Char} :
    ∀ {l : List Char}, (l.dropWhile p).head? = some c → p c = false := by
  intro l
  induction l with
  | nil => intro h; simp [List.dropWhile] at h
  | cons x xs ih =>
      intro h
      rw [List.dropWhile_cons] at h
      by_cases hx : p x
      · rw [if_pos hx] at h
        exact ih h
      · rw [if_neg hx] at h
        simp only [List.head?_cons, Option.some_inj] at h
        subst h
        exact Bool.not_eq_true _ ▸ Bool.of_not_eq_true hx

theorem exists_dropWhile_prepend (p : Char → Bool) :
    ∀ l : List Char, ∃ s, l = s ++ l.dropWhile p := by
  intro l
  induction l with
  | nil => exact ⟨[], rfl⟩
  | cons x xs ih =>
      by_cases hx : p x
      · obtain ⟨s, hs⟩ := ih
        refine ⟨x :: s, ?_⟩
        rw [List.dropWhile_cons, if_pos hx, List.cons_append, ← hs]
      · refine ⟨[], ?_⟩
        rw [List.dropWhile_cons, if_neg hx, List.nil_append]

theorem exists_trimRight_append (l : List Char) :
    ∃ t, l = trimRight l ++ t := by
  obtain ⟨s, hs⟩ := exists_dropWhile_prepend isJsWs l.reverse
  refine ⟨s.reverse, ?_⟩
  unfold trimRight
  calc l = l.reverse.reverse := (List.reverse_reverse l).symm
    _ = (s ++ l.reverse.dropWhile isJsWs).reverse := by rw [← hs]
    _ = (l.reverse.dropWhile isJsWs).reverse ++ s.reverse := by
          rw [List.reverse_append]

theorem head?_trimRight {c : Char} {l : List Char}
    (h : (trimRight l).head? = some c) : l.head? = some c := by
  obtain ⟨t, ht⟩ := exists_trimRight_append l
  cases htr : trimRight l with
  | nil => rw [htr] at h; simp at h
  | cons x xs =>
      rw [htr] at h ht
      simp only [List.head?_cons, Option.some_inj] at h
      rw [ht, List.cons_append, List.head?_cons, h]

theorem dropWhile_idem (p : Char → Bool) :
    ∀ l : List Char, (l.dropWhile p).dropWhile p = l.dropWhile p := by
  intro l
  induction l with
  | nil => rfl
  | cons x xs ih =>
      rw [List.dropWhile_cons]
      by_cases hx : p x
      · rw [if_pos hx, ih]
      · rw [if_neg hx, List.dropWhile_cons, if_neg hx]

theorem trimRight_idem (l : List Char) :
    trimRight (trimRight l) = trimRight l := by
  unfold trimRight
  rw [List.reverse_reverse, dropWhile_idem]

set_option maxRecDepth 100000 in
/-- C4 counterexample: for the 4002-character input consisting of `a`,
4000 spaces and `b`, the sanitizer's output ends in a space — the source
trims before it truncates to 4000 characters, so truncation can expose
trailing whitespace that was interior in the original string. -/
theorem sanitize_trailing_ws_cex :
    (sanitizeInput ('a' :: (List.replicate 4000 ' ' ++ ['b']))).getLast? = some ' ' ∧
    isJsWs ' ' = true := by
  constructor
  · decide
  · decide

/-- C4 (amended): the sanitizer's output never contains `$`, backtick or
backslash, never starts with whitespace, and has length at most 4000;
when the trimmed filtered text already fits in 4000 characters (so the
truncation is a no-op) the output also carries no trailing whitespace;
and an input that sanitizes to the empty string is rejected by
`processWithClaude` (when the gate is below capacity) with the explicit
`Invalid or empty message` outcome, without invoking either assistant
path and leaving the in-flight set untouched. -/
theorem sanitize_output_spec (l l2 : List Char) (s : Finset Nat) (tok : Nat)
    (sdk : SdkOutcome) (cli : CliOutcome)
    (hgate : s.card < MAX_CONCURRENT_PROCESSES)
    (hl2 : (sanitizeInput l2).isEmpty = true) :
    (∀ c ∈ sanitizeInput l, isRemovedChar c = false) ∧
    (∀ c, (sanitizeInput l).head? = some c → isJsWs c = false) ∧
    (sanitizeInput l).length ≤ 4000 ∧
    ((trimChars (l.filter (fun c => !isRemovedChar c))).length ≤ 4000 →
      trimRight (sanitizeInput l) = sanitizeInput l) ∧
    (processWithClaude s tok l2 sdk cli).outcome = .error invalidMsg ∧
    (processWithClaude s tok l2 sdk cli).cliPrompt = none ∧
    (processWithClaude s tok l2 sdk cli).gate = s := by
  have hproc :
      (processWithClaude s tok l2 sdk cli).outcome = .error invalidMsg ∧
      (processWithClaude s tok l2 sdk cli).cliPrompt = none ∧
      (processWithClaude s tok l2 sdk cli).gate = s := by
    unfold processWithClaude
    rw [if_neg (by omega), if_pos hl2]
    exact ⟨rfl, rfl, rfl⟩
  refine ⟨?_, ?_, ?_, ?_, hproc.1, hproc.2.1, hproc.2.2⟩
  · intro c hc
    have h1 := mem_of_mem_sanitize hc
    have h2 := List.of_mem_filter h1
    simpa using h2
  · intro c hc
    unfold sanitizeInput at hc
    rw [head?_take_pos (by omega)] at hc
    unfold trimChars at hc
    have h1 := head?_trimRight hc
    unfold trimLeft at h1
    exact head?_dropWhile_false h1
  · unfold sanitizeInput
    rw [List.length_take]
    omega
  · intro hfit
    unfold sanitizeInput
    rw [List.take_of_length_le hfit]
    unfold trimChars
    exact trimRight_idem _

/-- Witness for C4 at the concrete inputs `"  a  "` (sanitizes to `"a"`)
and `" "` (sanitizes to the empty string, rejected). -/
theorem sanitize_output_spec_witness :
    isRemovedChar 'a' = false ∧
    isJsWs 'a' = false ∧
    (sanitizeInput ("  a  ".toList)).length ≤ 4000 ∧
    trimRight (sanitizeInput ("  a  ".toList)) = sanitizeInput ("  a  ".toList) ∧
    (processWithClaude (∅ : Finset Nat) 1 (" ".toList) SdkOutcome.unavailable
      CliOutcome.hangs).outcome = .error invalidMsg := by
  have h := sanitize_output_spec ("  a  ".toList) (" ".toList) ∅ 1
    SdkOutcome.unavailable CliOutcome.hangs (by decide) (by decide)
  exact ⟨h.1 'a' (by decide), h.2.1 'a' (by decide), h.2.2.1,
    h.2.2.2.1 (by decide), h.2.2.2.2.1⟩

/-! ## Dispatcher lemmas -/

set_option maxRecDepth 10000 in
theorem classify_busy : classifyError busyMsg = genericDiag busyMsg := by
  decide

set_option maxRecDepth 10000 in
theorem classify_timeout : classifyError cliTimeoutMsg = timeoutDiag := by
  decide

theorem processWithClaude_busy (s : Finset Nat) (tok : Nat) (c : List Char)
    (sdk : SdkOutcome) (cli : CliOutcome)
    (hfull : MAX_CONCURRENT_PROCESSES ≤ s.card) :
    processWithClaude s tok c sdk cli = ⟨.error busyMsg, s, none, false⟩ := by
  unfold processWithClaude
  rw [if_pos hfull]

theorem processWithClaude_fallback (s : Finset Nat) (tok : Nat) (c : List Char)
    (sdk : SdkOutcome) (cli : CliOutcome)
    (hgate : s.card < MAX_CONCURRENT_PROCESSES)
    (hsan : (sanitizeInput c).isEmpty = false)
    (hsdk : sdkTriggersFallback sdk = true) :
    processWithClaude s tok c sdk cli =
      ⟨(processWithClaudeCLI (sanitizeInput c) cli).outcome,
        releaseTok (insert tok s) tok, some (sanitizeInput c),
        (processWithClaudeCLI (sanitizeInput c) cli).sigtermSent⟩ := by
  unfold processWithClaude
  rw [if_neg (by omega)]
  simp only [hsan, Bool.false_eq_true, if_false]
  cases sdk with
  | unavailable => rfl
  | throws m => rfl
  | resultMsg r =>
      have hr : (trimChars r).isEmpty = true := by
        simpa [sdkTriggersFallback] using hsdk
      simp only [hr, if_true]
  | noResultMsg lc => simp [sdkTriggersFallback] at hsdk

theorem handleMessage_allowed (st : BotState) (now u tok : Nat) (c : List Char)
    (sdk : SdkOutcome) (cli : CliOutcome)
    (hc1 : c.isEmpty = false) (hc2 : c.length ≤ 4000)
    (hcd : st.cooldowns u = none) :
    handleMessage st now u c 0 sdk cli tok =
      (match (processWithClaude st.active tok c sdk cli).outcome with
       | .ok resp =>
           ⟨sendResponse (some resp),
             ⟨setCd st.cooldowns u (now + COOLDOWN_MS),
               (processWithClaude st.active tok c sdk cli).gate⟩, true,
             (processWithClaude st.active tok c sdk cli).cliPrompt,
             (processWithClaude st.active tok c sdk cli).sigtermSent⟩
       | .error e =>
           ⟨[classifyError e],
             ⟨setCd st.cooldowns u (now + COOLDOWN_MS),
               (processWithClaude st.active tok c sdk cli).gate⟩, true,
             (processWithClaude st.active tok c sdk cli).cliPrompt,
             (processWithClaude st.active tok c sdk cli).sigtermSent⟩) := by
  have hval : (c.isEmpty || decide (4000 < c.length)) = false := by
    rw [hc1]
    simp
    omega
  unfold handleMessage
  rw [hval]
  simp only [Bool.false_eq_true, if_false]
  rw [if_neg (by omega : ¬ (0 : Nat) < 0)]
  unfold checkAndReserve
  rw [hcd]

/-- C1 (amended): for every valid inbound message from a cooldown-clear
user, the dispatcher runs the cooldown check (and writes the user's new
cooldown entry `now + COOLDOWN_MS`) before the concurrency-gate admission
check inside `processWithClaude`; when the gate refuses (in-flight set at
capacity), a busy error notice (the generic error reply carrying the
`System busy` message) is emitted, no assistant path is attempted and the
in-flight set is unchanged — but the user's cooldown entry has already
been written. -/
theorem dispatch_cooldown_before_gate (st : BotState) (now u tok : Nat)
    (c : List Char) (sdk : SdkOutcome) (cli : CliOutcome)
    (hc1 : c.isEmpty = false) (hc2 : c.length ≤ 4000)
    (hcd : st.cooldowns u = none)
    (hfull : MAX_CONCURRENT_PROCESSES ≤ st.active.card) :
    (handleMessage st now u c 0 sdk cli tok).replies = [genericDiag busyMsg] ∧
    (handleMessage st now u c 0 sdk cli tok).state.cooldowns u
      = some (now + COOLDOWN_MS) ∧
    (handleMessage st now u c 0 sdk cli tok).state.active = st.active ∧
    (handleMessage st now u c 0 sdk cli tok).cliPrompt = none := by
  rw [handleMessage_allowed st now u tok c sdk cli hc1 hc2 hcd]
  rw [processWithClaude_busy st.active tok c sdk cli hfull]
  refine ⟨?_, ?_, ?_, ?_⟩ <;> simp [classify_busy, setCd]

/-- Witness for C1 (amended): a gate already holding three tokens, a
cooldown-clear user, a valid two-character message. -/
theorem dispatch_cooldown_before_gate_witness :
    (handleMessage ⟨fun _ => none, {1, 2, 3}⟩ 1000 7 ("hi".toList) 0
        SdkOutcome.unavailable CliOutcome.hangs 9).replies
      = [genericDiag busyMsg] ∧
    (handleMessage ⟨fun _ => none, {1, 2, 3}⟩ 1000 7 ("hi".toList) 0
        SdkOutcome.unavailable CliOutcome.hangs 9).state.cooldowns 7
      = some (1000 + COOLDOWN_MS) := by
  have h := dispatch_cooldown_before_gate ⟨fun _ => none, {1, 2, 3}⟩ 1000 7 9
    ("hi".toList) SdkOutcome.unavailable CliOutcome.hangs
    (by decide) (by decide) rfl (by decide)
  exact ⟨h.1, h.2.1⟩

/-- C1 counterexample: with three invocations in flight and a
cooldown-clear user, handling a valid message changes the user's cooldown
map entry from `none` to `some (now + 3000)` even though the request is
refused for capacity — the claim that a capacity-refused request leaves
the cooldown map unchanged (gate checked before cooldown) is false. -/
theorem dispatch_busy_writes_cooldown_cex :
    ((⟨fun _ => none, {1, 2, 3}⟩ : BotState).cooldowns 7 = none) ∧
    (handleMessage ⟨fun _ => none, {1, 2, 3}⟩ 1000 7 ("hi".toList) 0
        SdkOutcome.unavailable CliOutcome.hangs 9).state.cooldowns 7
      = some 4000 := by
  constructor
  · rfl
  · decide

/-- C5: `checkAndReserve` returns Allowed and records
`nextAllowedAt = now + COOLDOWN_MS` (3000 ms) both when no entry exists
and when the stored deadline has passed; otherwise it returns Denied
carrying the ceiling of the remaining milliseconds in seconds, leaves the
map unchanged, and the dispatcher then emits only the wait notice and
never reaches `processWithClaude`. -/
theorem cooldown_check_and_reserve_spec
    (cdsN cdsA : Nat → Option Nat) (st : BotState)
    (u now e2 e tok : Nat) (c : List Char) (sdk : SdkOutcome) (cli : CliOutcome)
    (hn : cdsN u = none)
    (ha : cdsA u = some e2) (hle : e2 ≤ now)
    (he : st.cooldowns u = some e) (hlt : now < e)
    (hc1 : c.isEmpty = false) (hc2 : c.length ≤ 4000) :
    checkAndReserve cdsN u now = (.allowed, setCd cdsN u (now + COOLDOWN_MS)) ∧
    checkAndReserve cdsA u now = (.allowed, setCd cdsA u (now + COOLDOWN_MS)) ∧
    checkAndReserve st.cooldowns u now
      = (.denied ((e - now + 999) / 1000), st.cooldowns) ∧
    (handleMessage st now u c 0 sdk cli tok).replies
      = [waitMsg ((e - now + 999) / 1000)] ∧
    (handleMessage st now u c 0 sdk cli tok).state = st ∧
    (handleMessage st now u c 0 sdk cli tok).invoked = false := by
  have hval : (c.isEmpty || decide (4000 < c.length)) = false := by
    rw [hc1]
    simp
    omega
  have hden : checkAndReserve st.cooldowns u now
      = (.denied ((e - now + 999) / 1000), st.cooldowns) := by
    simp only [checkAndReserve, he]
    rw [if_pos hlt]
  have hhandle :
      handleMessage st now u c 0 sdk cli tok
        = ⟨[waitMsg ((e - now + 999) / 1000)], st, false, none, false⟩ := by
    unfold handleMessage
    rw [hval]
    simp only [Bool.false_eq_true, if_false]
    rw [if_neg (by omega : ¬ (0 : Nat) < 0), hden]
  refine ⟨?_, ?_, hden, ?_, ?_, ?_⟩
  · simp only [checkAndReserve, hn]
  · simp only [checkAndReserve, ha]
    rw [if_neg (by omega : ¬ now < e2)]
  · rw [hhandle]
  · rw [hhandle]
  · rw [hhandle]

/-- Witness for C5: a fresh user, a user whose cooldown expired at 500,
and a user cooled down until 5000 sending again at 3000 — denied with
`⌈2000 ms / 1000⌉ = 2` seconds and no invocation. -/
theorem cooldown_check_and_reserve_spec_witness :
    checkAndReserve (fun _ => none) 7 3000
      = (.allowed, setCd (fun _ => none) 7 (3000 + COOLDOWN_MS)) ∧
    checkAndReserve (fun x => if x = 7 then some 500 else none) 7 3000
      = (.allowed,
          setCd (fun x => if x = 7 then some 500 else none) 7 (3000 + COOLDOWN_MS)) ∧
    (handleMessage ⟨fun x => if x = 7 then some 5000 else none, ∅⟩ 3000 7
        ("hi".toList) 0 SdkOutcome.unavailable CliOutcome.hangs 1).replies
      = [waitMsg 2] ∧
    (handleMessage ⟨fun x => if x = 7 then some 5000 else none, ∅⟩ 3000 7
        ("hi".toList) 0 SdkOutcome.unavailable CliOutcome.hangs 1).invoked
      = false := by
  have h := cooldown_check_and_reserve_spec (fun _ => none)
    (fun x => if x = 7 then some 500 else none)
    ⟨fun x => if x = 7 then some 5000 else none, ∅⟩ 7 3000 500 5000 1
    ("hi".toList) SdkOutcome.unavailable CliOutcome.hangs
    rfl (by simp) (by omega) (by simp) (by omega) (by decide) (by decide)
  refine ⟨h.1, h.2.1, ?_, h.2.2.2.2.2⟩
  have h4 := h.2.2.2.1
  norm_num at h4
  exact h4

/-- C8: for every input that survives sanitization (and a gate below
capacity), the CLI fallback is attempted — and handed exactly the same
sanitized text — precisely when the SDK path is unavailable, throws
(which includes its soft timeout), or yields an empty / whitespace-only
result; and in every fallback case the overall outcome is exactly the
CLI outcome, with no extra user-visible indication of the SDK failure. -/
theorem cli_fallback_iff (s : Finset Nat) (tok : Nat) (c : List Char)
    (sdk : SdkOutcome) (cli : CliOutcome)
    (hgate : s.card < MAX_CONCURRENT_PROCESSES)
    (hsan : (sanitizeInput c).isEmpty = false) :
    ((processWithClaude s tok c sdk cli).cliPrompt
      = if sdkTriggersFallback sdk then some (sanitizeInput c) else none) ∧
    (sdkTriggersFallback sdk = true →
      (processWithClaude s tok c sdk cli).outcome
        = (processWithClaudeCLI (sanitizeInput c) cli).outcome) := by
  by_cases hsdk : sdkTriggersFallback sdk = true
  · rw [processWithClaude_fallback s tok c sdk cli hgate hsan hsdk, hsdk]
    exact ⟨rfl, fun _ => rfl⟩
  · have hsdk2 : sdkTriggersFallback sdk = false := by
      cases h : sdkTriggersFallback sdk
      · rfl
      · exact absurd h hsdk
    rw [hsdk2]
    refine ⟨?_, fun h => by simp at h⟩
    unfold processWithClaude
    rw [if_neg (by omega)]
    simp only [hsan, Bool.false_eq_true, if_false]
    cases sdk with
    | unavailable => simp [sdkTriggersFallback] at hsdk2
    | throws m => simp [sdkTriggersFallback] at hsdk2
    | resultMsg r =>
        have hr : (trimChars r).isEmpty = false := by
          simpa [sdkTriggersFallback] using hsdk2
        simp only [hr, Bool.false_eq_true, if_false]
    | noResultMsg lc => rfl

/-- Witness for C8: an empty SDK result (scenario D) against a CLI that
closes successfully — the CLI is attempted with the sanitized text and
the user sees only the CLI outcome. -/
theorem cli_fallback_iff_witness :
    (processWithClaude (∅ : Finset Nat) 1 ("  hi  ".toList)
        (SdkOutcome.resultMsg []) (CliOutcome.closes 0 ("ok".toList) []
          (some ⟨some ("ans".toList), none, none, false⟩) 100)).cliPrompt
      = some (sanitizeInput ("  hi  ".toList)) ∧
    (processWithClaude (∅ : Finset Nat) 1 ("  hi  ".toList)
        (SdkOutcome.resultMsg []) (CliOutcome.closes 0 ("ok".toList) []
          (some ⟨some ("ans".toList), none, none, false⟩) 100)).outcome
      = (processWithClaudeCLI (sanitizeInput ("  hi  ".toList))
          (CliOutcome.closes 0 ("ok".toList) []
            (some ⟨some ("ans".toList), none, none, false⟩) 100)).outcome := by
  have h := cli_fallback_iff ∅ 1 ("  hi  ".toList) (SdkOutcome.resultMsg [])
    (CliOutcome.closes 0 ("ok".toList) []
      (some ⟨some ("ans".toList), none, none, false⟩) 100)
    (by decide) (by decide)
  refine ⟨?_, h.2 (by decide)⟩
  rw [h.1]
  rfl

/-- C9: a CLI invocation that has not settled within 15,000 ms is sent
`SIGTERM`, settles as a Failure carrying the `timed out` message, and the
dispatcher emits the timeout-specific diagnostic while the concurrency
token is released (the in-flight set returns to its pre-request value). -/
theorem cli_timeout_behavior (st : BotState) (now u tok : Nat) (c : List Char)
    (sdk : SdkOutcome) (cli : CliOutcome)
    (hc1 : c.isEmpty = false) (hc2 : c.length ≤ 4000)
    (hcd : st.cooldowns u = none)
    (hgate : st.active.card < MAX_CONCURRENT_PROCESSES)
    (htok : tok ∉ st.active)
    (hsdk : sdkTriggersFallback sdk = true)
    (hsan : (sanitizeInput c).isEmpty = false)
    (hcli : cliUnsettledBy15000 cli = true) :
    (processWithClaudeCLI (sanitizeInput c) cli).sigtermSent = true ∧
    (processWithClaudeCLI (sanitizeInput c) cli).outcome
      = .error cliTimeoutMsg ∧
    (handleMessage st now u c 0 sdk cli tok).replies = [timeoutDiag] ∧
    (handleMessage st now u c 0 sdk cli tok).sigtermSent = true ∧
    (handleMessage st now u c 0 sdk cli tok).state.active = st.active := by
  have hcliRes : processWithClaudeCLI (sanitizeInput c) cli
      = ⟨.error cliTimeoutMsg, true⟩ := by
    cases cli with
    | hangs => rfl
    | closes code stdout stderr parse t =>
        have ht : 15000 < t := by simpa [cliUnsettledBy15000] using hcli
        simp only [processWithClaudeCLI]
        rw [if_neg (by omega : ¬ t ≤ 15000)]
    | errorEvent m t =>
        have ht : 15000 < t := by simpa [cliUnsettledBy15000] using hcli
        simp only [processWithClaudeCLI]
        rw [if_neg (by omega : ¬ t ≤ 15000)]
  have hgateRel : releaseTok (insert tok st.active) tok = st.active := by
    unfold releaseTok
    exact Finset.erase_insert htok
  have hproc := processWithClaude_fallback st.active tok c sdk cli hgate hsan hsdk
  rw [hcliRes] at hproc
  rw [handleMessage_allowed st now u tok c sdk cli hc1 hc2 hcd, hproc]
  rw [hcliRes]
  refine ⟨rfl, rfl, ?_, ?_, ?_⟩ <;> simp [classify_timeout, hgateRel]

/-- Witness for C9: a hanging CLI behind an unavailable SDK, empty gate,
cooldown-clear user. -/
theorem cli_timeout_behavior_witness :
    (processWithClaudeCLI (sanitizeInput ("hi".toList)) CliOutcome.hangs).sigtermSent
      = true ∧
    (handleMessage ⟨fun _ => none, ∅⟩ 0 7 ("hi".toList) 0
        SdkOutcome.unavailable CliOutcome.hangs 1).replies = [timeoutDiag] ∧
    (handleMessage ⟨fun _ => none, ∅⟩ 0 7 ("hi".toList) 0
        SdkOutcome.unavailable CliOutcome.hangs 1).state.active = ∅ := by
  have h := cli_timeout_behavior ⟨fun _ => none, ∅⟩ 0 7 1 ("hi".toList)
    SdkOutcome.unavailable CliOutcome.hangs
    (by decide) (by decide) rfl (by decide) (by decide) rfl (by decide) rfl
  exact ⟨h.1, h.2.2.1, h.2.2.2.2⟩

end DispatchBot
